import Mathlib

/-!
Shallow embedding of `beep/structure/cli.py`: the format dispatcher
`auto_load` and the batch-manifest processor `process_file_list_from_json`,
together with models of the Python standard-library path operations the
module calls.  External collaborators (format-handler internals, JSON
(de)serialization, the logger sink, the workflow sink, the filesystem)
are represented by explicit state in a `Trace` record; Python-level
behaviour such as name lookup, `zip` truncation and list indexing is made
explicit with an error type.
-/

/-- The handler type selected by dispatch.  Handler internals
(`ArbinDatapath.from_file`, `.structure()`, ...) are external collaborators
declared out of scope by the spec; only the identity of the chosen handler
matters to the dispatch and bookkeeping logic verified here. -/
inductive Datapath
  | arbin
  | maccor
  | indigo
  | biologic
  | neware
deriving Repr, DecidableEq

/-- Python exceptions that the embedded code can raise. -/
inductive PyErr
  | nameError (name : String)
  | indexError
  | valueError (msg : String)
  | fileExistsError (path : String)
deriving Repr, DecidableEq

/-- Index of the last occurrence of a character in a character list, if
any (model of Python `str.rfind` restricted to one-character needles). -/
def lastIdxOf : List Char → Char → Option Nat
  | [], _ => none
  | a :: as, c =>
    match lastIdxOf as c with
    | some i => some (i + 1)
    | none => if a = c then some 0 else none

/-- Model of `posixpath.basename`: everything after the last slash. -/
def os_path_basename (s : String) : String :=
  match lastIdxOf s.toList '/' with
  | none => s
  | some i => ⟨s.toList.drop (i + 1)⟩

/-- Model of `posixpath.splitext` on the underlying character list: split
at the last dot, provided that dot lies strictly inside the final path
component and that component has a non-dot character before it (CPython
treats a leading run of dots as part of the root, not an extension). -/
def splitextList (l : List Char) : List Char × List Char :=
  match lastIdxOf l '.' with
  | none => (l, [])
  | some d =>
    let s0 : Nat := match lastIdxOf l '/' with | none => 0 | some s => s + 1
    if d < s0 then (l, [])
    else if ((l.drop s0).take (d - s0)).all (fun c => c = '.') then (l, [])
    else (l.take d, l.drop d)

/-- Model of `posixpath.splitext`. -/
def os_path_splitext (s : String) : String × String :=
  (⟨(splitextList s.toList).1⟩, ⟨(splitextList s.toList).2⟩)

/-- Model of `posixpath.isabs`: the path starts with a slash. -/
def os_path_isabs (s : String) : Bool :=
  match s.toList with
  | '/' :: _ => true
  | _ => false

/-- Model of `posixpath.join` for two components: an absolute second
component replaces the first; otherwise a slash separates them unless the
first is empty or already ends with a slash. -/
def os_path_join (a b : String) : String :=
  if os_path_isabs b then b
  else if a = "" ∨ a.toList.getLast? = some '/' then a ++ b
  else a ++ "/" ++ b

/-- Split a character list on slashes (model of `str.split` at "/"). -/
def splitSlash : List Char → List (List Char)
  | [] => [[]]
  | c :: cs =>
    if c = '/' then [] :: splitSlash cs
    else
      match splitSlash cs with
      | [] => [[c]]
      | h :: t => (c :: h) :: t

/-- One step of the component filter of CPython `posixpath.normpath`:
drop empty components and single dots; a double dot pops the previous
component except at an unrooted start or after another double dot. -/
def normStep (slashes : Nat) (acc : List (List Char)) (comp : List Char) :
    List (List Char) :=
  if comp = [] ∨ comp = ['.'] then acc
  else if comp ≠ ['.', '.'] ∨ (slashes = 0 ∧ acc = []) ∨ acc.getLast? = some ['.', '.'] then
    acc ++ [comp]
  else acc.dropLast

/-- Model of `posixpath.normpath`. -/
def os_path_normpath (p : String) : String :=
  if p = "" then "." else
  let l := p.toList
  let slashes : Nat :=
    match l with
    | '/' :: '/' :: '/' :: _ => 1
    | '/' :: '/' :: _ => 2
    | '/' :: _ => 1
    | _ => 0
  let comps := (splitSlash l).foldl (normStep slashes) []
  let path := List.replicate slashes '/' ++ List.intercalate ['/'] comps
  if path = [] then "." else ⟨path⟩

/-- Model of `posixpath.abspath`, with the current working directory an
explicit argument instead of a process-global. -/
def os_path_abspath (cwd p : String) : String :=
  if os_path_isabs p then os_path_normpath p
  else os_path_normpath (os_path_join cwd p)

/-- Model of `os.path.exists` restricted to directories: the filesystem
state is the list of directory paths that exist. -/
def os_path_exists (dirs : List String) (d : String) : Bool :=
  dirs.contains d

/-- Model of `os.makedirs`: raises FileExistsError when the directory is
already present, otherwise creates it. -/
def os_makedirs (dirs : List String) (d : String) : Except PyErr (List String) :=
  if os_path_exists dirs d then .error (.fileExistsError d) else .ok (d :: dirs)

/-- Lines 54-55 of cli.py: `if not os.path.exists(processed_dir):
os.makedirs(processed_dir)`. -/
def ensure_processed_dir (dirs : List String) (d : String) :
    Except PyErr (List String) :=
  if os_path_exists dirs d then .ok dirs else os_makedirs dirs d

/-- Modelled from the spec: `beep.collate.add_suffix_to_filename` is
imported by cli.py but its source is not part of this snapshot; per the
spec the fixed suffix marker is inserted before the final extension. -/
def add_suffix_to_filename (filename suffix : String) : String :=
  (os_path_splitext filename).1 ++ suffix ++ (os_path_splitext filename).2

/-- The `file_pattern` fields of the seven conversion-schema
configurations read by `auto_load` (ARBIN, FastCharge, MACCOR,
xTesladiag, INDIGO, BIOLOGIC, NEWARE).  The schema module is external to
cli.py, so the pattern strings are left abstract. -/
structure Configs where
  arbin : String
  fastcharge : String
  maccor : String
  xtesladiag : String
  indigo : String
  biologic : String
  neware : String
deriving Repr, DecidableEq

/-- Modelled from the spec: the `re` module is external.  Python
`re.match` anchors at the beginning of the string, so for a pattern of
plain literal characters it succeeds exactly when the pattern is a prefix
of the string.  Used to instantiate the abstract matcher concretely. -/
def re_match_literal (pat s : String) : Bool :=
  pat.toList.isPrefixOf s.toList

/-- `auto_load` from cli.py: the if/elif dispatch chain over the seven
patterns, in source order, parameterised by the regex matcher `rm`
(`rm pat s = true` models `re.match(pat, s)` returning a match object).
Handler construction (`from_file`) is external I/O; the model records
which handler class the chain selects.  An unmatched filename raises
`ValueError("{} does not match any known file pattern".format(filename))`. -/
def auto_load (rm : String → String → Bool) (cfg : Configs) (filename : String) :
    Except PyErr Datapath :=
  if rm cfg.arbin filename || rm cfg.fastcharge filename then .ok .arbin
  else if rm cfg.maccor filename || rm cfg.xtesladiag filename then .ok .maccor
  else if rm cfg.indigo filename then .ok .indigo
  else if rm cfg.biologic filename then .ok .biologic
  else if rm cfg.neware filename then .ok .neware
  else .error (.valueError (filename ++ " does not match any known file pattern"))

/-- The names bound at module scope in cli.py: its imports and its two
function definitions.  The name `s` used in the keyword argument
`extra=s` of the logging call inside `process_file_list_from_json` is not
among them, and the function body never assigns `s` either, so evaluating
that argument falls back to this global scope and fails the lookup. -/
def cliGlobals : List String :=
  ["re", "os", "json", "loadfn", "dumpfn", "logger",
   "FastCharge_CONFIG", "xTesladiag_CONFIG", "ARBIN_CONFIG", "MACCOR_CONFIG",
   "INDIGO_CONFIG", "BIOLOGIC_CONFIG", "NEWARE_CONFIG",
   "ArbinDatapath", "MaccorDatapath", "NewareDatapath", "IndigoDatapath",
   "BiologicDatapath", "WorkflowOutputs", "add_suffix_to_filename",
   "process_file_list_from_json", "auto_load"]

/-- The parsed input manifest: the three parallel sequences read from the
JSON object (`file_list`, `validity`, `run_list`). -/
structure Manifest where
  file_list : List String
  validity : List String
  run_list : List Int
deriving Repr, DecidableEq

/-- A `{comment, error}` message object of the output manifest. -/
structure Msg where
  comment : String
  error : String
deriving Repr, DecidableEq

/-- The `output_json` dictionary built by `process_file_list_from_json`. -/
structure OutputJson where
  file_list : List String
  run_list : List Int
  result_list : List String
  message_list : List Msg
  invalid_file_list : List String
deriving Repr, DecidableEq

/-- The five empty accumulator lists initialised before the loop. -/
def emptyOutput : OutputJson := ⟨[], [], [], [], []⟩

/-- The `output_data` record handed to `outputs.put_workflow_outputs`. -/
structure WorkflowData where
  filename : String
  run_id : Int
  result : String
deriving Repr, DecidableEq

/-- Externally observable side effects of a run: the directory set, files
written by `dumpfn`, filenames passed to `auto_load`, info-log events
(run id and filename of each iteration's logging call), warning texts,
and records handed to the workflow sink. -/
structure Trace where
  dirs : List String
  written : List (String × Datapath)
  dispatched : List String
  infoLogs : List (Int × String)
  warnings : List String
  puts : List (WorkflowData × String)
deriving Repr, DecidableEq

/-- Python `zip` over the three manifest sequences: truncates to the
shortest sequence. -/
def pyZip3 : List String → List String → List Int → List (String × String × Int)
  | f :: fs, v :: vs, r :: rs => (f, v, r) :: pyZip3 fs vs rs
  | _, _, _ => []

/-- Python list indexing: IndexError when the index is out of range. -/
def pyGet {α : Type} (l : List α) (i : Nat) : Except PyErr α :=
  if h : i < l.length then .ok l[i] else .error .indexError

/-- The literal warning text of cli.py line 103.  The braces are part of
the string: the source string lacks an `f` prefix, so no interpolation
happens and the placeholder text is logged verbatim. -/
def warnMsg : String := "{file_list_size} files being validated, should be 1"

/-- The body of the per-entry loop of `process_file_list_from_json`
(cli.py lines 66-90) for one `(filename, validity, run_id)` triple.
`g` is the scope visible at the logging call; evaluating the keyword
argument `extra=s` looks `s` up there before anything else in the
iteration runs, and a failed lookup raises NameError.  On the valid path
the handler is dispatched, structured (external, opaque), the output
location derived, the structured object dumped there, and the five
bookkeeping lists extended; a non-valid entry only joins
`invalid_file_list`. -/
def structure_one (g : List String) (rm : String → String → Bool) (cfg : Configs)
    (processed_dir cwd : String) (tr : Trace) (acc : OutputJson)
    (e : String × String × Int) : Except PyErr OutputJson × Trace :=
  if g.contains "s" then
    let tr1 : Trace := { tr with infoLogs := tr.infoLogs ++ [(e.2.2, e.1)] }
    if e.2.1 == "valid" then
      let tr2 : Trace := { tr1 with dispatched := tr1.dispatched ++ [e.1] }
      match auto_load rm cfg e.1 with
      | .error err => (.error err, tr2)
      | .ok dp =>
        let new0 := (os_path_splitext (os_path_basename e.1)).1
        let new1 := new0 ++ ".json"
        let new2 := add_suffix_to_filename new1 "_structure"
        let loc := os_path_abspath cwd (os_path_join processed_dir new2)
        let tr3 : Trace := { tr2 with written := tr2.written ++ [(loc, dp)] }
        (.ok { acc with
                file_list := acc.file_list ++ [loc],
                run_list := acc.run_list ++ [e.2.2],
                result_list := acc.result_list ++ ["success"],
                message_list := acc.message_list ++ [⟨"", ""⟩] }, tr3)
    else
      (.ok { acc with invalid_file_list := acc.invalid_file_list ++ [e.1] }, tr1)
  else (.error (.nameError "s"), tr)

/-- The for-loop of `process_file_list_from_json`: sequential, and the
first raised exception propagates out of the loop, abandoning the
remaining entries. -/
def processLoop (g : List String) (rm : String → String → Bool) (cfg : Configs)
    (processed_dir cwd : String) (tr : Trace) (acc : OutputJson) :
    List (String × String × Int) → Except PyErr OutputJson × Trace
  | [] => (.ok acc, tr)
  | e :: rest =>
    match structure_one g rm cfg processed_dir cwd tr acc e with
    | (.error err, tr1) => (.error err, tr1)
    | (.ok acc1, tr1) => processLoop g rm cfg processed_dir cwd tr1 acc1 rest

/-- Lines 100-111 of cli.py: log a warning when the processed count is
not exactly one, then read index 0 of the three processed lists and hand
the record to the workflow sink under "structuring". -/
def reportStep (tr : Trace) (o : OutputJson) : Except PyErr WorkflowData × Trace :=
  let n := o.file_list.length
  let tr1 : Trace :=
    if n > 1 ∨ n = 0 then { tr with warnings := tr.warnings ++ [warnMsg] } else tr
  match pyGet o.file_list 0 with
  | .error err => (.error err, tr1)
  | .ok fn =>
    match pyGet o.run_list 0 with
    | .error err => (.error err, tr1)
    | .ok rid =>
      match pyGet o.result_list 0 with
      | .error err => (.error err, tr1)
      | .ok res =>
        (.ok ⟨fn, rid, res⟩,
         { tr1 with puts := tr1.puts ++ [(⟨fn, rid, res⟩, "structuring")] })

/-- The default of the `processed_dir` argument. -/
def default_processed_dir : String := "data-share/structure/"

/-- Lines 50-52 of cli.py: the configured output directory is joined
under `os.environ.get("BEEP_PROCESSING_DIR", "/")`. -/
def resolve_processed_dir (env_root : Option String) (processed_dir : String) :
    String :=
  os_path_join (env_root.getD "/") processed_dir

/-- `process_file_list_from_json` from cli.py, entered after the external
JSON parse (`loadfn` / `json.loads`) has produced the manifest and with
the environment, working directory and filesystem state explicit.
Returns the output manifest that line 114 would serialise — or the Python
exception raised — together with the externally observable trace. -/
def process_file_list_from_json (g : List String) (rm : String → String → Bool)
    (cfg : Configs) (env_root : Option String) (cwd : String)
    (dirs0 : List String) (m : Manifest) (processed_dir : String) :
    Except PyErr OutputJson × Trace :=
  let pd := resolve_processed_dir env_root processed_dir
  match ensure_processed_dir dirs0 pd with
  | .error err => (.error err, ⟨dirs0, [], [], [], [], []⟩)
  | .ok dirs1 =>
    let tr0 : Trace := ⟨dirs1, [], [], [], [], []⟩
    match processLoop g rm cfg pd cwd tr0 emptyOutput
        (pyZip3 m.file_list m.validity m.run_list) with
    | (.error err, tr1) => (.error err, tr1)
    | (.ok o, tr1) =>
      match reportStep tr1 o with
      | (.error err, tr2) => (.error err, tr2)
      | (.ok _, tr2) => (.ok o, tr2)

/-- The output location the loop derives for a processed file (cli.py
lines 76-80): base name without extension, plus ".json", suffixed through
`add_suffix_to_filename`, joined under the processed directory and made
absolute. -/
def out_loc (pd cwd f : String) : String :=
  os_path_abspath cwd (os_path_join pd
    (add_suffix_to_filename ((os_path_splitext (os_path_basename f)).1 ++ ".json")
      "_structure"))

/-- The manifest truncated to the length of its shortest sequence — the
portion that Python `zip` actually iterates. -/
def truncateManifest (m : Manifest) : Manifest :=
  let k := min (min m.file_list.length m.validity.length) m.run_list.length
  ⟨m.file_list.take k, m.validity.take k, m.run_list.take k⟩

/-- Sample pattern table for concrete evaluations. -/
def cfg0 : Configs := ⟨"A", "F", "M", "X", "I", "B", "N"⟩

/-- A matcher that never matches. -/
def rmFalse : String → String → Bool := fun _ _ => false

/-- A matcher that always matches. -/
def rmTrue : String → String → Bool := fun _ _ => true

/-! Helper lemmas. -/

lemma cliGlobals_no_s : cliGlobals.contains "s" = false := by decide

lemma ensure_processed_dir_eq (dirs : List String) (d : String) :
    ensure_processed_dir dirs d
      = .ok (if os_path_exists dirs d then dirs else d :: dirs) := by
  unfold ensure_processed_dir os_makedirs
  by_cases h : os_path_exists dirs d <;> simp [h]

lemma structure_one_no_s {g : List String} (hg : g.contains "s" = false)
    (rm : String → String → Bool) (cfg : Configs) (pd cwd : String)
    (tr : Trace) (acc : OutputJson) (e : String × String × Int) :
    structure_one g rm cfg pd cwd tr acc e = (.error (.nameError "s"), tr) := by
  unfold structure_one
  rw [hg]
  simp

lemma processLoop_cons_error {g : List String} {rm : String → String → Bool}
    {cfg : Configs} {pd cwd : String} {tr : Trace} {acc : OutputJson}
    {e : String × String × Int} {err : PyErr} {tr1 : Trace}
    (h : structure_one g rm cfg pd cwd tr acc e = (.error err, tr1))
    (rest : List (String × String × Int)) :
    processLoop g rm cfg pd cwd tr acc (e :: rest) = (.error err, tr1) := by
  unfold processLoop
  rw [h]

lemma processLoop_cons_ok {g : List String} {rm : String → String → Bool}
    {cfg : Configs} {pd cwd : String} {tr : Trace} {acc : OutputJson}
    {e : String × String × Int} {acc1 : OutputJson} {tr1 : Trace}
    (h : structure_one g rm cfg pd cwd tr acc e = (.ok acc1, tr1))
    (rest : List (String × String × Int)) :
    processLoop g rm cfg pd cwd tr acc (e :: rest)
      = processLoop g rm cfg pd cwd tr1 acc1 rest := by
  conv_lhs => rw [processLoop]
  rw [h]

lemma process_eq (g : List String) (rm : String → String → Bool) (cfg : Configs)
    (env_root : Option String) (cwd : String) (dirs0 : List String)
    (m : Manifest) (pd : String) :
    process_file_list_from_json g rm cfg env_root cwd dirs0 m pd
      = (match processLoop g rm cfg (resolve_processed_dir env_root pd) cwd
            ⟨if os_path_exists dirs0 (resolve_processed_dir env_root pd) then dirs0
              else resolve_processed_dir env_root pd :: dirs0, [], [], [], [], []⟩
            emptyOutput (pyZip3 m.file_list m.validity m.run_list) with
         | (.error err, tr1) => (.error err, tr1)
         | (.ok o, tr1) =>
           match reportStep tr1 o with
           | (.error err, tr2) => (.error err, tr2)
           | (.ok _, tr2) => (.ok o, tr2)) := by
  simp only [process_file_list_from_json]
  rw [ensure_processed_dir_eq]

lemma process_nameError {g : List String} (hg : g.contains "s" = false)
    (rm : String → String → Bool) (cfg : Configs) (env_root : Option String)
    (cwd : String) (dirs0 : List String) (m : Manifest) (pd : String)
    (hne : m.file_list ≠ [])
    (h1 : m.file_list.length = m.validity.length)
    (h2 : m.validity.length = m.run_list.length) :
    process_file_list_from_json g rm cfg env_root cwd dirs0 m pd
      = (.error (.nameError "s"),
         ⟨if os_path_exists dirs0 (resolve_processed_dir env_root pd) then dirs0
           else resolve_processed_dir env_root pd :: dirs0, [], [], [], [], []⟩) := by
  obtain ⟨fl, vl, rl⟩ := m
  cases fl with
  | nil => exact absurd rfl hne
  | cons f fs =>
    cases vl with
    | nil => simp at h1
    | cons v vs =>
      cases rl with
      | nil => simp at h2
      | cons r rs =>
        rw [process_eq]
        simp only [pyZip3]
        rw [processLoop_cons_error (structure_one_no_s hg rm cfg _ cwd _ emptyOutput _)]

lemma pyZip3_length (fl vl : List String) (rl : List Int) :
    (pyZip3 fl vl rl).length = min (min fl.length vl.length) rl.length := by
  induction fl generalizing vl rl with
  | nil => cases vl <;> cases rl <;> simp [pyZip3]
  | cons f fs ih =>
    cases vl with
    | nil => simp [pyZip3]
    | cons v vs =>
      cases rl with
      | nil => simp [pyZip3]
      | cons r rs =>
        have h := ih vs rs
        simp only [pyZip3, List.length_cons, h]
        omega

lemma pyZip3_take (fl vl : List String) (rl : List Int) :
    pyZip3 fl vl rl
      = pyZip3 (fl.take (min (min fl.length vl.length) rl.length))
               (vl.take (min (min fl.length vl.length) rl.length))
               (rl.take (min (min fl.length vl.length) rl.length)) := by
  induction fl generalizing vl rl with
  | nil => cases vl <;> cases rl <;> simp [pyZip3]
  | cons f fs ih =>
    cases vl with
    | nil => simp [pyZip3]
    | cons v vs =>
      cases rl with
      | nil => simp [pyZip3]
      | cons r rs =>
        have h : min (min (f :: fs).length (v :: vs).length) (r :: rs).length
            = min (min fs.length vs.length) rs.length + 1 := by
          simp only [List.length_cons]
          omega
        rw [h]
        simp only [List.take_succ_cons, pyZip3]
        rw [← ih]

lemma pyZip3_mem {fl vl : List String} {rl : List Int}
    {t : String × String × Int} (h : t ∈ pyZip3 fl vl rl) :
    t.1 ∈ fl ∧ t.2.1 ∈ vl ∧ t.2.2 ∈ rl := by
  induction fl generalizing vl rl with
  | nil => cases vl <;> cases rl <;> simp [pyZip3] at h
  | cons f fs ih =>
    cases vl with
    | nil => simp [pyZip3] at h
    | cons v vs =>
      cases rl with
      | nil => simp [pyZip3] at h
      | cons r rs =>
        simp only [pyZip3, List.mem_cons] at h
        rcases h with h | h
        · subst h
          simp
        · have := ih h
          simp only [List.mem_cons]
          tauto

lemma pyZip3_map_fst {fl vl : List String} {rl : List Int}
    (h1 : fl.length = vl.length) (h2 : vl.length = rl.length) :
    (pyZip3 fl vl rl).map (fun t => t.1) = fl := by
  induction fl generalizing vl rl with
  | nil =>
    cases vl with
    | nil => cases rl <;> simp [pyZip3]
    | cons v vs => simp at h1
  | cons f fs ih =>
    cases vl with
    | nil => simp at h1
    | cons v vs =>
      cases rl with
      | nil => simp at h2
      | cons r rs =>
        simp only [pyZip3, List.map_cons, List.cons.injEq, true_and]
        exact ih (by simpa using h1) (by simpa using h2)

lemma pyZip3_map_third {fl vl : List String} {rl : List Int}
    (h1 : fl.length = vl.length) (h2 : vl.length = rl.length) :
    (pyZip3 fl vl rl).map (fun t => t.2.2) = rl := by
  induction fl generalizing vl rl with
  | nil =>
    cases vl with
    | nil =>
      cases rl with
      | nil => simp [pyZip3]
      | cons r rs => simp at h2
    | cons v vs => simp at h1
  | cons f fs ih =>
    cases vl with
    | nil => simp at h1
    | cons v vs =>
      cases rl with
      | nil => simp at h2
      | cons r rs =>
        simp only [pyZip3, List.map_cons, List.cons.injEq, true_and]
        exact ih (by simpa using h1) (by simpa using h2)

lemma lastIdxOf_eq_none {l : List Char} {c : Char} (h : c ∉ l) :
    lastIdxOf l c = none := by
  induction l with
  | nil => rfl
  | cons a as ih =>
    simp only [List.mem_cons, not_or] at h
    simp only [lastIdxOf, ih h.2]
    rw [if_neg (fun hh => h.1 hh.symm)]

lemma not_mem_of_lastIdxOf_none {l : List Char} {c : Char}
    (h : lastIdxOf l c = none) : c ∉ l := by
  induction l with
  | nil => simp
  | cons a as ih =>
    simp only [lastIdxOf] at h
    cases hs : lastIdxOf as c with
    | some j => rw [hs] at h; simp at h
    | none =>
      rw [hs] at h
      by_cases hac : a = c
      · rw [if_pos hac] at h
        simp at h
      · simp only [List.mem_cons, not_or]
        exact ⟨fun hh => hac hh.symm, ih hs⟩

lemma lastIdxOf_append_some {ys : List Char} {c : Char} {i : Nat}
    (h : lastIdxOf ys c = some i) (xs : List Char) :
    lastIdxOf (xs ++ ys) c = some (xs.length + i) := by
  induction xs with
  | nil => simpa using h
  | cons a as ih =>
    simp only [List.cons_append, lastIdxOf, List.append_eq, ih, List.length_cons,
      Option.some.injEq]
    omega

lemma splitextList_stem_json {stem : List Char}
    (hs : '/' ∉ stem) (hd : ∃ c ∈ stem, c ≠ '.') :
    splitextList (stem ++ ".json".toList) = (stem, ".json".toList) := by
  have hjson : lastIdxOf ".json".toList '.' = some 0 := by decide
  have hdot : lastIdxOf (stem ++ ".json".toList) '.' = some stem.length := by
    simpa using lastIdxOf_append_some hjson stem
  have hns : '/' ∉ stem ++ ".json".toList := by
    simp only [List.mem_append, not_or]
    exact ⟨hs, by decide⟩
  have hslash : lastIdxOf (stem ++ ".json".toList) '/' = none :=
    lastIdxOf_eq_none hns
  unfold splitextList
  rw [hdot, hslash]
  simp only [Nat.not_lt_zero, if_false, Nat.sub_zero, List.drop_zero,
    List.take_left, List.drop_left]
  rw [if_neg]
  simp only [List.all_eq_true, not_forall]
  obtain ⟨c, hc, hne⟩ := hd
  exact ⟨c, hc, by simpa using hne⟩

lemma add_suffix_json (stem : String)
    (hs : '/' ∉ stem.toList) (hd : ∃ c ∈ stem.toList, c ≠ '.') :
    add_suffix_to_filename (stem ++ ".json") "_structure"
      = stem ++ "_structure.json" := by
  have hdata : (stem ++ ".json").toList = stem.toList ++ ".json".toList := by
    simp [String.toList, String.data_append]
  unfold add_suffix_to_filename os_path_splitext
  rw [hdata, splitextList_stem_json hs hd]
  obtain ⟨l⟩ := stem
  show (⟨l⟩ ++ "_structure" ++ ⟨".json".toList⟩ : String) = ⟨l⟩ ++ "_structure.json"
  have h1 : (⟨".json".toList⟩ : String) = ".json" := rfl
  rw [h1]
  apply congrArg String.mk
  show (l ++ "_structure".data) ++ ".json".data = l ++ "_structure.json".data
  rw [List.append_assoc]
  rfl

lemma lastIdxOf_drop {l : List Char} {c : Char} {i : Nat}
    (h : lastIdxOf l c = some i) : c ∉ l.drop (i + 1) := by
  induction l generalizing i with
  | nil => simp [lastIdxOf] at h
  | cons a as ih =>
    simp only [lastIdxOf] at h
    cases hs : lastIdxOf as c with
    | some j =>
      rw [hs] at h
      simp only [Option.some.injEq] at h
      subst h
      simpa using ih hs
    | none =>
      rw [hs] at h
      by_cases hac : a = c
      · rw [if_pos hac] at h
        simp only [Option.some.injEq] at h
        subst h
        simpa using not_mem_of_lastIdxOf_none hs
      · rw [if_neg hac] at h
        simp at h

lemma basename_no_slash (f : String) : '/' ∉ (os_path_basename f).toList := by
  unfold os_path_basename
  cases h : lastIdxOf f.toList '/' with
  | none => exact not_mem_of_lastIdxOf_none h
  | some i => exact lastIdxOf_drop h

lemma splitextList_fst_subset (l : List Char) {c : Char} (h : c ∉ l) :
    c ∉ (splitextList l).1 := by
  unfold splitextList
  cases hd : lastIdxOf l '.' with
  | none => exact h
  | some d =>
    dsimp only
    split
    · exact h
    · split
      · exact h
      · intro hmem
        exact h (List.take_subset _ _ hmem)

lemma stem_no_slash (f : String) :
    '/' ∉ (os_path_splitext (os_path_basename f)).1.toList :=
  splitextList_fst_subset _ (basename_no_slash f)

lemma structure_one_valid {g : List String} (hs : g.contains "s" = true)
    (rm : String → String → Bool) (cfg : Configs) (pd cwd : String)
    (tr : Trace) (acc : OutputJson) (f : String) (r : Int) {dp : Datapath}
    (hload : auto_load rm cfg f = .ok dp) :
    structure_one g rm cfg pd cwd tr acc (f, "valid", r)
      = (.ok { acc with
            file_list := acc.file_list ++ [out_loc pd cwd f],
            run_list := acc.run_list ++ [r],
            result_list := acc.result_list ++ ["success"],
            message_list := acc.message_list ++ [⟨"", ""⟩] },
         { tr with
            written := tr.written ++ [(out_loc pd cwd f, dp)],
            dispatched := tr.dispatched ++ [f],
            infoLogs := tr.infoLogs ++ [(r, f)] }) := by
  unfold structure_one
  rw [hs]
  simp only [if_true]
  rw [hload]
  rfl

lemma structure_one_invalid {g : List String} (hs : g.contains "s" = true)
    (rm : String → String → Bool) (cfg : Configs) (pd cwd : String)
    (tr : Trace) (acc : OutputJson) (f v : String) (r : Int)
    (hv : ¬ v = "valid") :
    structure_one g rm cfg pd cwd tr acc (f, v, r)
      = (.ok { acc with invalid_file_list := acc.invalid_file_list ++ [f] },
         { tr with infoLogs := tr.infoLogs ++ [(r, f)] }) := by
  unfold structure_one
  rw [hs]
  simp [hv]

lemma processLoop_all_valid {g : List String} (hs : g.contains "s" = true)
    (rm : String → String → Bool) (cfg : Configs) (pd cwd : String) :
    ∀ (ts : List (String × String × Int)) (tr : Trace) (acc : OutputJson),
      (∀ t ∈ ts, t.2.1 = "valid") →
      (∀ t ∈ ts, ∃ dp, auto_load rm cfg t.1 = .ok dp) →
      ∃ o tr1,
        processLoop g rm cfg pd cwd tr acc ts = (.ok o, tr1)
        ∧ o.invalid_file_list = acc.invalid_file_list
        ∧ o.file_list.length = acc.file_list.length + ts.length
        ∧ o.run_list = acc.run_list ++ ts.map (fun t => t.2.2)
        ∧ o.result_list = acc.result_list ++ List.replicate ts.length "success"
        ∧ o.message_list = acc.message_list ++ List.replicate ts.length ⟨"", ""⟩
        ∧ tr1.dirs = tr.dirs ∧ tr1.warnings = tr.warnings ∧ tr1.puts = tr.puts := by
  intro ts
  induction ts with
  | nil =>
    intro tr acc hv hm
    exact ⟨acc, tr, rfl, rfl, by simp, by simp, by simp, by simp, rfl, rfl, rfl⟩
  | cons t ts ih =>
    intro tr acc hv hm
    obtain ⟨f, v, r⟩ := t
    have hv1 : v = "valid" := hv (f, v, r) (List.mem_cons_self _ _)
    obtain ⟨dp, hdp⟩ := hm (f, v, r) (List.mem_cons_self _ _)
    subst hv1
    rw [processLoop_cons_ok (structure_one_valid hs rm cfg pd cwd tr acc f r hdp) ts]
    obtain ⟨o, tr1, heq, h1, h2, h3, h4, h5, h6, h7, h8⟩ :=
      ih _ _ (fun t ht => hv t (List.mem_cons_of_mem _ ht))
        (fun t ht => hm t (List.mem_cons_of_mem _ ht))
    refine ⟨o, tr1, heq, ?_, ?_, ?_, ?_, ?_, ?_, ?_, ?_⟩
    · simpa using h1
    · simp only [List.length_cons]
      simp only [List.length_append, List.length_cons, List.length_nil] at h2
      omega
    · rw [h3]
      simp
    · rw [h4]
      simp [List.replicate_succ]
    · rw [h5]
      simp [List.replicate_succ]
    · simpa using h6
    · simpa using h7
    · simpa using h8

lemma processLoop_all_invalid {g : List String} (hs : g.contains "s" = true)
    (rm : String → String → Bool) (cfg : Configs) (pd cwd : String) :
    ∀ (ts : List (String × String × Int)) (tr : Trace) (acc : OutputJson),
      (∀ t ∈ ts, ¬ t.2.1 = "valid") →
      ∃ tr1,
        processLoop g rm cfg pd cwd tr acc ts
          = (.ok { acc with invalid_file_list :=
                     acc.invalid_file_list ++ ts.map (fun t => t.1) }, tr1)
        ∧ tr1.dirs = tr.dirs ∧ tr1.warnings = tr.warnings
        ∧ tr1.written = tr.written ∧ tr1.dispatched = tr.dispatched
        ∧ tr1.puts = tr.puts := by
  intro ts
  induction ts with
  | nil =>
    intro tr acc hv
    refine ⟨tr, ?_, rfl, rfl, rfl, rfl, rfl⟩
    simp [processLoop]
  | cons t ts ih =>
    intro tr acc hv
    obtain ⟨f, v, r⟩ := t
    have hv1 : ¬ v = "valid" := hv (f, v, r) (List.mem_cons_self _ _)
    rw [processLoop_cons_ok (structure_one_invalid hs rm cfg pd cwd tr acc f v r hv1) ts]
    obtain ⟨tr1, heq, h1, h2, h3, h4, h5⟩ :=
      ih { tr with infoLogs := tr.infoLogs ++ [(r, f)] }
         { acc with invalid_file_list := acc.invalid_file_list ++ [f] }
         (fun t ht => hv t (List.mem_cons_of_mem _ ht))
    refine ⟨tr1, ?_, by simpa using h1, by simpa using h2, by simpa using h3,
      by simpa using h4, by simpa using h5⟩
    rw [heq]
    simp

lemma structure_one_dirs (g : List String) (rm : String → String → Bool)
    (cfg : Configs) (pd cwd : String) (tr : Trace) (acc : OutputJson)
    (e : String × String × Int) :
    (structure_one g rm cfg pd cwd tr acc e).2.dirs = tr.dirs := by
  unfold structure_one
  split
  · split
    · split <;> rfl
    · rfl
  · rfl

lemma processLoop_dirs (g : List String) (rm : String → String → Bool)
    (cfg : Configs) (pd cwd : String) :
    ∀ (ts : List (String × String × Int)) (tr : Trace) (acc : OutputJson),
      (processLoop g rm cfg pd cwd tr acc ts).2.dirs = tr.dirs := by
  intro ts
  induction ts with
  | nil => intro tr acc; rfl
  | cons e ts ih =>
    intro tr acc
    have hd := structure_one_dirs g rm cfg pd cwd tr acc e
    rcases h : structure_one g rm cfg pd cwd tr acc e with ⟨res, tr1⟩
    rw [h] at hd
    cases res with
    | error err =>
      rw [processLoop_cons_error h]
      exact hd
    | ok acc1 =>
      rw [processLoop_cons_ok h]
      rw [ih]
      exact hd

lemma reportStep_dirs (tr : Trace) (o : OutputJson) :
    (reportStep tr o).2.dirs = tr.dirs := by
  unfold reportStep
  dsimp only
  split
  · split <;> rfl
  · split
    · split <;> rfl
    · split
      · split <;> rfl
      · split <;> rfl

lemma reportStep_empty (tr : Trace) (o : OutputJson) (h : o.file_list = []) :
    reportStep tr o
      = (.error .indexError, { tr with warnings := tr.warnings ++ [warnMsg] }) := by
  unfold reportStep
  rw [h]
  rfl

lemma reportStep_warnings (tr : Trace) (o : OutputJson) :
    (reportStep tr o).2.warnings
      = if o.file_list.length > 1 ∨ o.file_list.length = 0
        then tr.warnings ++ [warnMsg] else tr.warnings := by
  unfold reportStep
  dsimp only
  split
  · split <;> rfl
  · split
    · split <;> rfl
    · split
      · split <;> rfl
      · split <;> rfl

lemma reportStep_fst_ok (tr : Trace) (o : OutputJson)
    (h1 : o.file_list ≠ []) (h2 : o.run_list ≠ []) (h3 : o.result_list ≠ []) :
    (reportStep tr o).1
      = .ok ⟨o.file_list.headD "", o.run_list.headD 0, o.result_list.headD ""⟩ := by
  rcases o with ⟨fl, rl, resl, ml, il⟩
  cases fl with
  | nil => exact absurd rfl h1
  | cons a as =>
    cases rl with
    | nil => exact absurd rfl h2
    | cons b bs =>
      cases resl with
      | nil => exact absurd rfl h3
      | cons c cs =>
        simp [reportStep, pyGet]

/-- Claim C1: for every well-formed input manifest with at least one file
entry, whatever the validity tags, `process_file_list_from_json` raises
NameError("s") at the first iteration's logging call — before any file is
dispatched, structured, written or reported — and no output manifest is
produced. -/
theorem c1_name_error_aborts (rm : String → String → Bool) (cfg : Configs)
    (env_root : Option String) (cwd : String) (dirs0 : List String)
    (m : Manifest) (pd : String)
    (hne : m.file_list ≠ [])
    (h1 : m.file_list.length = m.validity.length)
    (h2 : m.validity.length = m.run_list.length) :
    ∃ tr : Trace,
      process_file_list_from_json cliGlobals rm cfg env_root cwd dirs0 m pd
        = (.error (.nameError "s"), tr)
      ∧ tr.dispatched = [] ∧ tr.written = [] ∧ tr.infoLogs = []
      ∧ tr.puts = [] :=
  ⟨_, process_nameError cliGlobals_no_s rm cfg env_root cwd dirs0 m pd hne h1 h2,
    rfl, rfl, rfl, rfl⟩

/-- Witness for C1 at a concrete one-entry manifest. -/
theorem c1_witness :
    ∃ tr : Trace,
      process_file_list_from_json cliGlobals rmTrue cfg0 none "/" []
          ⟨["a.csv"], ["valid"], [1]⟩ default_processed_dir
        = (.error (.nameError "s"), tr)
      ∧ tr.dispatched = [] ∧ tr.written = [] ∧ tr.infoLogs = []
      ∧ tr.puts = [] :=
  c1_name_error_aborts rmTrue cfg0 none "/" [] ⟨["a.csv"], ["valid"], [1]⟩
    default_processed_dir (by decide) (by decide) (by decide)

/-- Claim C2 is false on the code at a concrete batch: with a first valid
entry that matches no pattern followed by a second valid entry, the run
aborts before any dispatch (with the logging NameError rather than an
UnrecognizedFormat error), and the remaining file is never dispatched,
structured or recorded — the rest of the batch is aborted. -/
theorem c2_counterexample :
    process_file_list_from_json cliGlobals re_match_literal cfg0 none "/" []
        ⟨["zzz.xyz", "A2.csv"], ["valid", "valid"], [1, 2]⟩ default_processed_dir
      = (.error (.nameError "s"),
         ⟨["/data-share/structure/"], [], [], [], [], []⟩) := rfl

/-- Claim C2 amended: when a valid entry's filename matches none of the
seven patterns, `auto_load` fails with ValueError("<filename> does not
match any known file pattern"), and in the batch loop this per-entry
failure aborts the batch — the remaining entries are never reached (with
the module scope as shipped, the logging NameError aborts at the first
entry of any nonempty batch, likewise skipping the rest). -/
theorem c2_dispatch_error_aborts (g : List String) (rm : String → String → Bool)
    (cfg : Configs) (pd cwd : String) (tr : Trace) (acc : OutputJson)
    (f : String) (r : Int) (rest : List (String × String × Int))
    (hs : g.contains "s" = true)
    (h1 : rm cfg.arbin f = false) (h2 : rm cfg.fastcharge f = false)
    (h3 : rm cfg.maccor f = false) (h4 : rm cfg.xtesladiag f = false)
    (h5 : rm cfg.indigo f = false) (h6 : rm cfg.biologic f = false)
    (h7 : rm cfg.neware f = false) :
    auto_load rm cfg f
      = .error (.valueError (f ++ " does not match any known file pattern"))
    ∧ processLoop g rm cfg pd cwd tr acc ((f, "valid", r) :: rest)
        = (.error (.valueError (f ++ " does not match any known file pattern")),
           { tr with dispatched := tr.dispatched ++ [f],
                     infoLogs := tr.infoLogs ++ [(r, f)] })
    ∧ ∀ (tr' : Trace) (acc' : OutputJson) (e : String × String × Int)
        (rest' : List (String × String × Int)),
        processLoop cliGlobals rm cfg pd cwd tr' acc' (e :: rest')
          = (.error (.nameError "s"), tr') := by
  have hload : auto_load rm cfg f
      = .error (.valueError (f ++ " does not match any known file pattern")) := by
    unfold auto_load
    rw [h1, h2, h3, h4, h5, h6, h7]
    rfl
  have hstep : structure_one g rm cfg pd cwd tr acc (f, "valid", r)
      = (.error (.valueError (f ++ " does not match any known file pattern")),
         { tr with dispatched := tr.dispatched ++ [f],
                   infoLogs := tr.infoLogs ++ [(r, f)] }) := by
    unfold structure_one
    rw [hs]
    simp only [if_true]
    rw [hload]
    rfl
  refine ⟨hload, processLoop_cons_error hstep rest, ?_⟩
  intro tr' acc' e rest'
  exact processLoop_cons_error
    (structure_one_no_s cliGlobals_no_s rm cfg pd cwd tr' acc' e) rest'

/-- Witness for C2's amended statement at a concrete unmatched file. -/
theorem c2_witness :
    auto_load re_match_literal cfg0 "zzz.xyz"
      = .error (.valueError ("zzz.xyz" ++ " does not match any known file pattern"))
    ∧ processLoop ["s"] re_match_literal cfg0 "/out" "/" ⟨[], [], [], [], [], []⟩
        emptyOutput [("zzz.xyz", "valid", 1)]
        = (.error (.valueError ("zzz.xyz" ++ " does not match any known file pattern")),
           ⟨[], [], ["zzz.xyz"], [(1, "zzz.xyz")], [], []⟩)
    ∧ ∀ (tr' : Trace) (acc' : OutputJson) (e : String × String × Int)
        (rest' : List (String × String × Int)),
        processLoop cliGlobals re_match_literal cfg0 "/out" "/" tr' acc' (e :: rest')
          = (.error (.nameError "s"), tr') :=
  c2_dispatch_error_aborts ["s"] re_match_literal cfg0 "/out" "/"
    ⟨[], [], [], [], [], []⟩ emptyOutput "zzz.xyz" 1 [] rfl
    (by decide) (by decide) (by decide) (by decide) (by decide) (by decide)
    (by decide)

/-- Claim C3 is false on the code: a manifest with mismatched sequence
lengths is not rejected with any manifest-shape error; here the pipeline
runs through (the output directory is even created), the zip silently
truncates, and the failure that finally surfaces is the reporter's
IndexError at the end. -/
theorem c3_counterexample :
    process_file_list_from_json cliGlobals rmFalse cfg0 none "/" []
        ⟨["a.csv"], [], []⟩ default_processed_dir
      = (.error .indexError,
         ⟨["/data-share/structure/"], [], [], [], [warnMsg], []⟩) := rfl

/-- Claim C3 amended: mismatched lengths are not detected — the three
sequences are silently truncated to the shortest by zip, so a batch run
behaves exactly as on the truncated manifest, and the number of iterated
entries is the minimum of the three lengths. -/
theorem c3_zip_truncates (g : List String) (rm : String → String → Bool)
    (cfg : Configs) (env_root : Option String) (cwd : String)
    (dirs0 : List String) (m : Manifest) (pd : String) :
    process_file_list_from_json g rm cfg env_root cwd dirs0 m pd
      = process_file_list_from_json g rm cfg env_root cwd dirs0
          (truncateManifest m) pd
    ∧ (pyZip3 m.file_list m.validity m.run_list).length
        = min (min m.file_list.length m.validity.length) m.run_list.length := by
  constructor
  · rw [process_eq, process_eq]
    simp only [truncateManifest]
    rw [← pyZip3_take]
  · exact pyZip3_length _ _ _

/-- Claim C4 is false on the code: reading index 0 of an empty processed
list fails with the plain out-of-range IndexError; no EmptyBatchResult
error exists anywhere in the module. -/
theorem c4_counterexample :
    reportStep ⟨[], [], [], [], [], []⟩ ⟨[], [], [], [], []⟩
      = (.error .indexError, ⟨[], [], [], [], [warnMsg], []⟩) := rfl

/-- Claim C4 amended: for every batch whose processed file list ends up
empty, the Workflow Reporter's read of index 0 raises the plain
out-of-range IndexError (after logging the count warning); the code
defines no explicit EmptyBatchResult error. -/
theorem c4_reporter_index_error (tr : Trace) (o : OutputJson)
    (h : o.file_list = []) :
    reportStep tr o
      = (.error .indexError,
         { tr with warnings := tr.warnings ++ [warnMsg] }) :=
  reportStep_empty tr o h

/-- Witness for C4's amended statement. -/
theorem c4_witness :
    reportStep ⟨["d"], [], [], [], [], []⟩ ⟨[], [2], ["success"], [], []⟩
      = (.error .indexError, ⟨["d"], [], [], [], [warnMsg], []⟩) :=
  c4_reporter_index_error ⟨["d"], [], [], [], [], []⟩
    ⟨[], [2], ["success"], [], []⟩ rfl

/-- Claim C5 is false on the code: with an empty manifest the processed
count is 0, so it differs from one and the warning is logged as the claim
says, but the invocation then raises IndexError instead of proceeding
without raising. -/
theorem c5_counterexample :
    process_file_list_from_json cliGlobals rmFalse cfg0 none "/" []
        ⟨[], [], []⟩ default_processed_dir
      = (.error .indexError,
         ⟨["/data-share/structure/"], [], [], [], [warnMsg], []⟩) := rfl

/-- Claim C5 amended: in the reporting step the warning is emitted
exactly when the processed count differs from one; with all three
processed lists nonempty the step then proceeds and succeeds, but with a
zero count the index-0 read raises IndexError, so the invocation does
raise in that case. -/
theorem c5_warning_behavior (tr : Trace) (o : OutputJson) :
    (o.file_list.length = 1 → (reportStep tr o).2.warnings = tr.warnings)
    ∧ (o.file_list.length ≠ 1 →
        (reportStep tr o).2.warnings = tr.warnings ++ [warnMsg])
    ∧ (o.file_list = [] → (reportStep tr o).1 = .error .indexError)
    ∧ (o.file_list ≠ [] → o.run_list ≠ [] → o.result_list ≠ [] →
        (reportStep tr o).1
          = .ok ⟨o.file_list.headD "", o.run_list.headD 0,
                 o.result_list.headD ""⟩) := by
  refine ⟨?_, ?_, ?_, ?_⟩
  · intro h
    rw [reportStep_warnings, if_neg]
    omega
  · intro h
    rw [reportStep_warnings, if_pos]
    omega
  · intro h
    rw [reportStep_empty tr o h]
  · exact reportStep_fst_ok tr o

/-- Witness for C5's amended statement at concrete outputs of sizes one,
two and zero. -/
theorem c5_witness :
    (reportStep ⟨[], [], [], [], [], []⟩
        ⟨["f"], [1], ["success"], [⟨"", ""⟩], []⟩).2.warnings = []
    ∧ (reportStep ⟨[], [], [], [], [], []⟩
        ⟨["f", "h"], [1, 2], ["success", "success"],
         [⟨"", ""⟩, ⟨"", ""⟩], []⟩).2.warnings = [] ++ [warnMsg]
    ∧ (reportStep ⟨[], [], [], [], [], []⟩ ⟨[], [], [], [], []⟩).1
        = .error .indexError
    ∧ (reportStep ⟨[], [], [], [], [], []⟩
        ⟨["f"], [1], ["success"], [⟨"", ""⟩], []⟩).1
        = .ok ⟨"f", 1, "success"⟩ :=
  ⟨(c5_warning_behavior _ _).1 rfl,
   (c5_warning_behavior _ _).2.1 (by decide),
   (c5_warning_behavior _ _).2.2.1 rfl,
   (c5_warning_behavior _ _).2.2.2 (by decide) (by decide) (by decide)⟩

/-- Claim C6 (code bug): at the failing input — a single valid entry that
every pattern matches — the shipped code raises NameError("s") and
produces no output manifest; with the logging name bound (the evident
intent of the line), every nonempty all-valid manifest whose files all
dispatch yields exactly the claimed output: empty invalid_file_list,
output file_list of input length, run_list equal to the input run list,
every result "success", every message an empty comment/error pair. -/
theorem c6_all_valid_behavior :
    process_file_list_from_json cliGlobals rmTrue cfg0 none "/" []
        ⟨["a.csv"], ["valid"], [1]⟩ default_processed_dir
      = (.error (.nameError "s"),
         ⟨["/data-share/structure/"], [], [], [], [], []⟩)
    ∧ ∀ (g : List String) (rm : String → String → Bool) (cfg : Configs)
        (env_root : Option String) (cwd : String) (dirs0 : List String)
        (m : Manifest) (pd : String),
        g.contains "s" = true →
        m.file_list ≠ [] →
        m.file_list.length = m.validity.length →
        m.validity.length = m.run_list.length →
        (∀ v ∈ m.validity, v = "valid") →
        (∀ f ∈ m.file_list, ∃ dp, auto_load rm cfg f = .ok dp) →
        ∃ o tr,
          process_file_list_from_json g rm cfg env_root cwd dirs0 m pd
            = (.ok o, tr)
          ∧ o.invalid_file_list = []
          ∧ o.file_list.length = m.file_list.length
          ∧ o.run_list = m.run_list
          ∧ o.result_list = List.replicate m.file_list.length "success"
          ∧ o.message_list = List.replicate m.file_list.length ⟨"", ""⟩ := by
  constructor
  · rfl
  · intro g rm cfg env_root cwd dirs0 m pd hs hne h1 h2 hv hm
    have hvts : ∀ t ∈ pyZip3 m.file_list m.validity m.run_list, t.2.1 = "valid" :=
      fun t ht => hv _ (pyZip3_mem ht).2.1
    have hmts : ∀ t ∈ pyZip3 m.file_list m.validity m.run_list,
        ∃ dp, auto_load rm cfg t.1 = .ok dp :=
      fun t ht => hm _ (pyZip3_mem ht).1
    obtain ⟨o, tr1, heq, ho1, ho2, ho3, ho4, ho5, htr1, htr2, htr3⟩ :=
      processLoop_all_valid hs rm cfg (resolve_processed_dir env_root pd) cwd
        (pyZip3 m.file_list m.validity m.run_list)
        ⟨if os_path_exists dirs0 (resolve_processed_dir env_root pd)
           then dirs0 else resolve_processed_dir env_root pd :: dirs0,
         [], [], [], [], []⟩ emptyOutput hvts hmts
    have hlen0 : m.file_list.length ≠ 0 := by
      intro hz
      exact hne (List.eq_nil_of_length_eq_zero hz)
    have hlen : (pyZip3 m.file_list m.validity m.run_list).length
        = m.file_list.length := by
      rw [pyZip3_length]
      omega
    have hfl : o.file_list.length = m.file_list.length := by
      rw [ho2, hlen]
      simp [emptyOutput]
    have hrl : o.run_list = m.run_list := by
      rw [ho3]
      have := pyZip3_map_third h1 h2
      simp [emptyOutput, this]
    have hone : o.file_list ≠ [] := by
      intro hnil
      rw [hnil] at hfl
      exact hlen0 hfl.symm
    have horl : o.run_list ≠ [] := by
      rw [hrl]
      intro hnil
      apply hlen0
      have h3 : m.run_list.length = 0 := by rw [hnil]; rfl
      omega
    have hores : o.result_list ≠ [] := by
      rw [ho4, hlen]
      simp only [emptyOutput, List.nil_append, ne_eq, List.replicate_eq_nil_iff]
      exact hlen0
    rcases hrs : reportStep tr1 o with ⟨res, tr2⟩
    have hfst := reportStep_fst_ok tr1 o hone horl hores
    rw [hrs] at hfst
    dsimp only at hfst
    subst hfst
    refine ⟨o, tr2, ?_, by simpa [emptyOutput] using ho1, hfl, hrl, ?_, ?_⟩
    · rw [process_eq, heq]
      dsimp only
      rw [hrs]
    · rw [ho4, hlen]
      simp [emptyOutput]
    · rw [ho5, hlen]
      simp [emptyOutput]

/-- Witness for C6's intended-behaviour part at a concrete single-entry
manifest with the logging name bound. -/
theorem c6_witness :
    ∃ o tr,
      process_file_list_from_json ("s" :: cliGlobals) rmTrue cfg0 none "/" []
          ⟨["b.csv"], ["valid"], [2]⟩ default_processed_dir
        = (.ok o, tr)
      ∧ o.invalid_file_list = []
      ∧ o.file_list.length = 1
      ∧ o.run_list = [2]
      ∧ o.result_list = List.replicate 1 "success"
      ∧ o.message_list = List.replicate 1 ⟨"", ""⟩ :=
  c6_all_valid_behavior.2 ("s" :: cliGlobals) rmTrue cfg0 none "/" []
    ⟨["b.csv"], ["valid"], [2]⟩ default_processed_dir rfl (by decide) rfl rfl
    (by simp) (fun f _ => ⟨.arbin, rfl⟩)

/-- Claim C7 is false on the code: with a single non-valid entry the run
aborts with the logging NameError before the validity check is even
reached, so no output manifest carrying the invalid file list is ever
returned. -/
theorem c7_counterexample :
    process_file_list_from_json cliGlobals rmFalse cfg0 none "/" []
        ⟨["a.csv"], ["invalid"], [1]⟩ default_processed_dir
      = (.error (.nameError "s"),
         ⟨["/data-share/structure/"], [], [], [], [], []⟩) := rfl

/-- Claim C7 amended: no output manifest is returned for an all-invalid
manifest.  With the logging name bound, the loop does collect every input
filename verbatim and in order into invalid_file_list with the other four
lists empty, but the reporter's index-0 read then raises IndexError (and
with the scope as shipped the logging NameError aborts already at the
first entry), so the constructed manifest is never returned. -/
theorem c7_all_invalid_behavior (g : List String) (rm : String → String → Bool)
    (cfg : Configs) (env_root : Option String) (cwd : String)
    (dirs0 : List String) (m : Manifest) (pd : String)
    (hs : g.contains "s" = true)
    (h1 : m.file_list.length = m.validity.length)
    (h2 : m.validity.length = m.run_list.length)
    (hv : ∀ v ∈ m.validity, ¬ v = "valid") :
    (∃ tr1, processLoop g rm cfg (resolve_processed_dir env_root pd) cwd
        ⟨if os_path_exists dirs0 (resolve_processed_dir env_root pd)
           then dirs0 else resolve_processed_dir env_root pd :: dirs0,
         [], [], [], [], []⟩ emptyOutput
        (pyZip3 m.file_list m.validity m.run_list)
      = (.ok ⟨[], [], [], [], m.file_list⟩, tr1))
    ∧ (∃ tr2, process_file_list_from_json g rm cfg env_root cwd dirs0 m pd
        = (.error .indexError, tr2) ∧ tr2.warnings = [warnMsg]) := by
  obtain ⟨tr1, heq, ht1, ht2, ht3, ht4, ht5⟩ :=
    processLoop_all_invalid hs rm cfg (resolve_processed_dir env_root pd) cwd
      (pyZip3 m.file_list m.validity m.run_list)
      ⟨if os_path_exists dirs0 (resolve_processed_dir env_root pd)
         then dirs0 else resolve_processed_dir env_root pd :: dirs0,
       [], [], [], [], []⟩
      emptyOutput (fun t ht => hv _ (pyZip3_mem ht).2.1)
  have hmap : (pyZip3 m.file_list m.validity m.run_list).map (fun t => t.1)
      = m.file_list := pyZip3_map_fst h1 h2
  have hval : ({ emptyOutput with
      invalid_file_list := emptyOutput.invalid_file_list
        ++ (pyZip3 m.file_list m.validity m.run_list).map (fun t => t.1) }
        : OutputJson)
      = ⟨[], [], [], [], m.file_list⟩ := by
    simp [emptyOutput, hmap]
  rw [hval] at heq
  constructor
  · exact ⟨tr1, heq⟩
  · refine ⟨{ tr1 with warnings := tr1.warnings ++ [warnMsg] }, ?_, ?_⟩
    · rw [process_eq, heq]
      dsimp only
      rw [reportStep_empty tr1 ⟨[], [], [], [], m.file_list⟩ rfl]
    · simp only [ht2]
      rfl

/-- Witness for C7's amended statement at a concrete two-entry
all-invalid manifest with the logging name bound. -/
theorem c7_witness :
    (∃ tr1, processLoop ("s" :: cliGlobals) rmFalse cfg0
        (resolve_processed_dir none default_processed_dir) "/"
        ⟨["/data-share/structure/"], [], [], [], [], []⟩ emptyOutput
        (pyZip3 ["a", "b"] ["bad", "skip"] [1, 2])
      = (.ok ⟨[], [], [], [], ["a", "b"]⟩, tr1))
    ∧ (∃ tr2, process_file_list_from_json ("s" :: cliGlobals) rmFalse cfg0
        none "/" [] ⟨["a", "b"], ["bad", "skip"], [1, 2]⟩ default_processed_dir
      = (.error .indexError, tr2) ∧ tr2.warnings = [warnMsg]) :=
  c7_all_invalid_behavior ("s" :: cliGlobals) rmFalse cfg0 none "/" []
    ⟨["a", "b"], ["bad", "skip"], [1, 2]⟩ default_processed_dir rfl rfl rfl
    (by decide)

/-- Claim C8: `auto_load` evaluates the bindings in the fixed source
order — Arbin for the ARBIN or FastCharge pattern, then Maccor for MACCOR
or xTesladiag, then Indigo, Biologic and Neware — and the first matching
binding wins, so a filename matching several patterns resolves to the
earliest-registered handler. -/
theorem c8_dispatch_order (rm : String → String → Bool) (cfg : Configs)
    (f : String) :
    ((rm cfg.arbin f = true ∨ rm cfg.fastcharge f = true) →
        auto_load rm cfg f = .ok .arbin)
    ∧ (rm cfg.arbin f = false → rm cfg.fastcharge f = false →
        (rm cfg.maccor f = true ∨ rm cfg.xtesladiag f = true) →
        auto_load rm cfg f = .ok .maccor)
    ∧ (rm cfg.arbin f = false → rm cfg.fastcharge f = false →
        rm cfg.maccor f = false → rm cfg.xtesladiag f = false →
        rm cfg.indigo f = true → auto_load rm cfg f = .ok .indigo)
    ∧ (rm cfg.arbin f = false → rm cfg.fastcharge f = false →
        rm cfg.maccor f = false → rm cfg.xtesladiag f = false →
        rm cfg.indigo f = false → rm cfg.biologic f = true →
        auto_load rm cfg f = .ok .biologic)
    ∧ (rm cfg.arbin f = false → rm cfg.fastcharge f = false →
        rm cfg.maccor f = false → rm cfg.xtesladiag f = false →
        rm cfg.indigo f = false → rm cfg.biologic f = false →
        rm cfg.neware f = true → auto_load rm cfg f = .ok .neware) := by
  unfold auto_load
  refine ⟨?_, ?_, ?_, ?_, ?_⟩
  · rintro (h | h) <;> simp [h]
  · intro h1 h2 h3
    rcases h3 with h3 | h3 <;> simp [h1, h2, h3]
  · intro h1 h2 h3 h4 h5
    simp [h1, h2, h3, h4, h5]
  · intro h1 h2 h3 h4 h5 h6
    simp [h1, h2, h3, h4, h5, h6]
  · intro h1 h2 h3 h4 h5 h6 h7
    simp [h1, h2, h3, h4, h5, h6, h7]

/-- Witness for C8: a filename matching both the MACCOR pattern and the
(identical, later-registered) INDIGO pattern dispatches to Maccor, the
earlier binding. -/
theorem c8_witness :
    auto_load re_match_literal ⟨"A", "F", "M", "X", "M", "B", "N"⟩ "M1.csv"
      = .ok .maccor :=
  (c8_dispatch_order re_match_literal ⟨"A", "F", "M", "X", "M", "B", "N"⟩
      "M1.csv").2.1 (by decide) (by decide) (Or.inl (by decide))

lemma structure_one_valid_error {g : List String} (hs : g.contains "s" = true)
    (rm : String → String → Bool) (cfg : Configs) (pd cwd : String)
    (tr : Trace) (acc : OutputJson) (f : String) (r : Int) {err : PyErr}
    (hload : auto_load rm cfg f = .error err) :
    structure_one g rm cfg pd cwd tr acc (f, "valid", r)
      = (.error err,
         { tr with dispatched := tr.dispatched ++ [f],
                   infoLogs := tr.infoLogs ++ [(r, f)] }) := by
  unfold structure_one
  rw [hs]
  simp only [if_true]
  rw [hload]
  rfl

/-- Claim C9: for a valid entry that dispatches, the recorded output
location is the absolute resolution, against the processed directory, of
the input's base name stripped of its extension with "_structure.json"
attached — i.e. ".json" is appended and the fixed "_structure" suffix
lands before that final extension — both in the output file list and in
the dump trace; the processed directory is the configured one joined
under the environment root (default "/"), is created when absent, and is
left untouched with no error when already present. -/
theorem c9_output_location :
    (∀ (g : List String) (rm : String → String → Bool) (cfg : Configs)
        (pdir cwd : String) (tr : Trace) (acc : OutputJson) (f : String)
        (r : Int) (dp : Datapath),
        g.contains "s" = true →
        auto_load rm cfg f = .ok dp →
        (∃ c ∈ (os_path_splitext (os_path_basename f)).1.toList, c ≠ '.') →
        structure_one g rm cfg pdir cwd tr acc (f, "valid", r)
          = (.ok { acc with
                file_list := acc.file_list
                  ++ [os_path_abspath cwd (os_path_join pdir
                        ((os_path_splitext (os_path_basename f)).1
                          ++ "_structure.json"))],
                run_list := acc.run_list ++ [r],
                result_list := acc.result_list ++ ["success"],
                message_list := acc.message_list ++ [⟨"", ""⟩] },
             { tr with
                written := tr.written
                  ++ [(os_path_abspath cwd (os_path_join pdir
                        ((os_path_splitext (os_path_basename f)).1
                          ++ "_structure.json")), dp)],
                dispatched := tr.dispatched ++ [f],
                infoLogs := tr.infoLogs ++ [(r, f)] }))
    ∧ (∀ (dirs : List String) (d : String),
        ensure_processed_dir dirs d
          = .ok (if os_path_exists dirs d then dirs else d :: dirs))
    ∧ (∀ (g : List String) (rm : String → String → Bool) (cfg : Configs)
        (env_root : Option String) (cwd : String) (dirs0 : List String)
        (m : Manifest) (pd : String),
        resolve_processed_dir env_root pd
          = os_path_join (env_root.getD "/") pd
        ∧ (process_file_list_from_json g rm cfg env_root cwd dirs0 m pd).2.dirs
          = (if os_path_exists dirs0 (resolve_processed_dir env_root pd)
             then dirs0 else resolve_processed_dir env_root pd :: dirs0)) := by
  refine ⟨?_, ensure_processed_dir_eq, ?_⟩
  · intro g rm cfg pdir cwd tr acc f r dp hs hload hnd
    rw [structure_one_valid hs rm cfg pdir cwd tr acc f r hload]
    simp only [out_loc,
      add_suffix_json ((os_path_splitext (os_path_basename f)).1)
        (stem_no_slash f) hnd]
  · intro g rm cfg env_root cwd dirs0 m pd
    refine ⟨rfl, ?_⟩
    rw [process_eq]
    have hdirs := processLoop_dirs g rm cfg (resolve_processed_dir env_root pd)
      cwd (pyZip3 m.file_list m.validity m.run_list)
      ⟨if os_path_exists dirs0 (resolve_processed_dir env_root pd)
         then dirs0 else resolve_processed_dir env_root pd :: dirs0,
       [], [], [], [], []⟩ emptyOutput
    rcases h : processLoop g rm cfg (resolve_processed_dir env_root pd) cwd
        ⟨if os_path_exists dirs0 (resolve_processed_dir env_root pd)
           then dirs0 else resolve_processed_dir env_root pd :: dirs0,
         [], [], [], [], []⟩ emptyOutput
        (pyZip3 m.file_list m.validity m.run_list) with ⟨res, tr1⟩
    rw [h] at hdirs
    dsimp only at hdirs
    cases res with
    | error err =>
      dsimp only
      exact hdirs
    | ok o =>
      dsimp only
      have hrd := reportStep_dirs tr1 o
      rcases h2 : reportStep tr1 o with ⟨res2, tr2⟩
      rw [h2] at hrd
      dsimp only at hrd
      cases res2 with
      | error err =>
        dsimp only
        rw [hrd]
        exact hdirs
      | ok d =>
        dsimp only
        rw [hrd]
        exact hdirs

/-- Witness for C9 at a concrete valid entry and concrete directory
states. -/
theorem c9_witness :
    structure_one ["s"] rmTrue cfg0 "/out" "/" ⟨[], [], [], [], [], []⟩
        emptyOutput ("raw/cellA_2019.csv", "valid", 7)
      = (.ok ⟨[os_path_abspath "/" (os_path_join "/out"
                 "cellA_2019_structure.json")],
              [7], ["success"], [⟨"", ""⟩], []⟩,
         ⟨[], [(os_path_abspath "/" (os_path_join "/out"
                 "cellA_2019_structure.json"), .arbin)],
          ["raw/cellA_2019.csv"], [(7, "raw/cellA_2019.csv")], [], []⟩)
    ∧ ensure_processed_dir ["/out"] "/out" = .ok ["/out"]
    ∧ ensure_processed_dir [] "/out" = .ok ["/out"] :=
  ⟨c9_output_location.1 ["s"] rmTrue cfg0 "/out" "/" ⟨[], [], [], [], [], []⟩
      emptyOutput "raw/cellA_2019.csv" 7 .arbin rfl rfl (by decide),
   c9_output_location.2.1 ["/out"] "/out",
   c9_output_location.2.1 [] "/out"⟩

/-- Claim C10 is false: under the anchored literal-prefix model of
re.match, a pattern table whose every pattern matches the file's base
name still dispatches nothing, because `auto_load` matches against the
full path string of the entry, not against its base name. -/
theorem c10_counterexample :
    auto_load re_match_literal ⟨"cellA", "cellA", "cellA", "cellA", "cellA",
        "cellA", "cellA"⟩ "raw/cellA_2019.csv"
      = .error (.valueError
          ("raw/cellA_2019.csv does not match any known file pattern"))
    ∧ re_match_literal "cellA" (os_path_basename "raw/cellA_2019.csv") = true :=
  ⟨rfl, rfl⟩

/-- Claim C10 amended: dispatch matching is applied to the full path
string of the manifest entry, verbatim: the result depends only on the
matcher's behaviour on that full string, the loop hands `auto_load` the
entry unchanged (never its base name), and under the anchored literal
model the first binding fires exactly when its pattern is a prefix of the
full path. -/
theorem c10_full_path_matching :
    (∀ (rm rm' : String → String → Bool) (cfg : Configs) (f : String),
        (∀ p, rm p f = rm' p f) →
        auto_load rm cfg f = auto_load rm' cfg f)
    ∧ (∀ (g : List String) (rm : String → String → Bool) (cfg : Configs)
        (pd cwd : String) (tr : Trace) (acc : OutputJson) (f : String)
        (r : Int),
        g.contains "s" = true →
        (structure_one g rm cfg pd cwd tr acc (f, "valid", r)).2.dispatched
          = tr.dispatched ++ [f])
    ∧ (∀ (cfg : Configs) (f : String),
        auto_load re_match_literal cfg f = .ok .arbin
          ↔ (cfg.arbin.toList.isPrefixOf f.toList = true
             ∨ cfg.fastcharge.toList.isPrefixOf f.toList = true)) := by
  refine ⟨?_, ?_, ?_⟩
  · intro rm rm' cfg f h
    unfold auto_load
    rw [h cfg.arbin, h cfg.fastcharge, h cfg.maccor, h cfg.xtesladiag,
      h cfg.indigo, h cfg.biologic, h cfg.neware]
  · intro g rm cfg pd cwd tr acc f r hs
    rcases hl : auto_load rm cfg f with err | dp
    · rw [structure_one_valid_error hs rm cfg pd cwd tr acc f r hl]
    · rw [structure_one_valid hs rm cfg pd cwd tr acc f r hl]
  · intro cfg f
    constructor
    · intro hcon
      unfold auto_load at hcon
      split_ifs at hcon with hA hM hI hB hN
      · simpa [re_match_literal, Bool.or_eq_true] using hA
      all_goals simp_all
    · intro hor
      unfold auto_load
      have h : (re_match_literal cfg.arbin f
          || re_match_literal cfg.fastcharge f) = true := by
        simpa [re_match_literal, Bool.or_eq_true] using hor
      rw [if_pos h]

/-- Witness for C10's amended statement at concrete matchers, entries and
pattern tables. -/
theorem c10_witness :
    auto_load rmTrue cfg0 "a.csv" = auto_load rmTrue cfg0 "a.csv"
    ∧ (structure_one ["s"] rmTrue cfg0 "/out" "/" ⟨[], [], [], [], [], []⟩
        emptyOutput ("raw/x.csv", "valid", 1)).2.dispatched
        = [] ++ ["raw/x.csv"]
    ∧ (auto_load re_match_literal cfg0 "A9.csv" = .ok .arbin
        ↔ ("A".toList.isPrefixOf "A9.csv".toList = true
           ∨ "F".toList.isPrefixOf "A9.csv".toList = true)) :=
  ⟨c10_full_path_matching.1 rmTrue rmTrue cfg0 "a.csv" (fun _ => rfl),
   c10_full_path_matching.2.1 ["s"] rmTrue cfg0 "/out" "/"
     ⟨[], [], [], [], [], []⟩ emptyOutput "raw/x.csv" 1 rfl,
   c10_full_path_matching.2.2 cfg0 "A9.csv"⟩
